import Mathlib

/-!
Shallow embedding of the client-side filter/sort/aggregation pipeline of the
incident dashboard: the filter and comparator logic of
`filteredAndSortedIncidents` (src/unnamed/part_000, lines 93-132, and
src/src/components/IncidentsTable.tsx, lines 48-85), the chart scaling of
`TrendsChart` (src/src/components/TrendsChart.tsx), and the reporter-display
rule of `IncidentDetailsModal` (src/unnamed/part_000, lines 221-228).

JavaScript strings are modelled as Lean `String` values; `toLowerCase` becomes
a per-character map, `includes` a substring test on the character list, and
the relational operator `<` on strings the lexicographic order on the
character list (code-unit comparison).  JavaScript numbers appearing here
(timestamps, counts) are integers in the source data, so they are modelled as
`Int`/`Nat`.  `Array.prototype.sort` with a comparator is modelled as a stable
merge sort by the comparator-induced `≤`.
-/

namespace Bandit

/-- Model of `String.prototype.toLowerCase`, restricted to the per-character
case mapping (all strings in this code base are ASCII). -/
def jsToLower (s : String) : String := ⟨s.data.map Char.toLower⟩

/-- Model of the JavaScript `<` operator on two strings: lexicographic
comparison of the character sequences by code unit. -/
def jsLt (a b : String) : Bool := decide (a.data < b.data)

/-- Tests whether `pat` occurs as a contiguous run inside the character
list, checking a match at every suffix. -/
def charsContain (pat : List Char) : List Char → Bool
  | [] => pat.isEmpty
  | c :: t => pat.isPrefixOf (c :: t) || charsContain pat t

/-- Model of `String.prototype.includes`: `jsIncludes s pat` is true when
`pat` occurs as a substring of `s`. -/
def jsIncludes (s pat : String) : Bool := charsContain pat.data s.data

/-- Casualty counts of an incident (`casualties` object of the `Incident`
interface). -/
structure Casualties where
  deaths : Nat
  injuries : Nat
  missing : Nat
deriving DecidableEq

/-- Livestock-theft counts of an incident (`livestockStolen` object of the
`Incident` interface). -/
structure LivestockStolen where
  cattle : Nat
  goats : Nat
  sheep : Nat
  camels : Nat
  other : Nat
deriving DecidableEq

/-- The `Incident` interface of src/unnamed/part_000 (the fuller of the two
variants in the repository).  Optional (`?`) fields become `Option`;
timestamps are integer epochs; the `priority` and `status` enums are kept as
strings because the source filters and sorts them as strings. -/
structure Incident where
  _id : String
  _creationTime : Int
  incidentType : String
  county : String
  subcounty : Option String
  location : String
  incidentDate : Int
  reportedDate : Int
  priority : String
  status : String
  description : String
  casualties : Casualties
  livestockStolen : LivestockStolen
  isVerified : Bool
  reporterName : Option String
  reporterPhone : Option String
  isAnonymous : Bool
  respondingAgencies : List String
  actionsTaken : Option String
  responseTime : Option Int
deriving DecidableEq

/-- The filter state driving `filteredAndSortedIncidents`: `searchTerm`,
`statusFilter`, `priorityFilter`, `countyFilter`.  The source encodes "no
constraint" as the empty string. -/
structure FilterSpec where
  searchTerm : String
  status : String
  priority : String
  county : String
deriving DecidableEq

/-- The all-empty filter (every constraint absent). -/
def emptyFilter : FilterSpec := ⟨"", "", "", ""⟩

/-- The `matchesSearch` conjunct of the filter (src/unnamed/part_000, lines
95-99): empty term passes, otherwise a case-insensitive substring test
against description, location, county, and `_id`, joined by `||`. -/
def matchesSearch (searchTerm : String) (incident : Incident) : Bool :=
  searchTerm == "" ||
    jsIncludes (jsToLower incident.description) (jsToLower searchTerm) ||
    jsIncludes (jsToLower incident.location) (jsToLower searchTerm) ||
    jsIncludes (jsToLower incident.county) (jsToLower searchTerm) ||
    jsIncludes (jsToLower incident._id) (jsToLower searchTerm)

/-- The `matchesStatus` conjunct (line 101): empty filter passes, otherwise
exact equality. -/
def matchesStatus (statusFilter : String) (incident : Incident) : Bool :=
  statusFilter == "" || incident.status == statusFilter

/-- The `matchesPriority` conjunct (line 102). -/
def matchesPriority (priorityFilter : String) (incident : Incident) : Bool :=
  priorityFilter == "" || incident.priority == priorityFilter

/-- The `matchesCounty` conjunct (line 103). -/
def matchesCounty (countyFilter : String) (incident : Incident) : Bool :=
  countyFilter == "" || incident.county == countyFilter

/-- The combined filter predicate (line 105):
`matchesSearch && matchesStatus && matchesPriority && matchesCounty`. -/
def passesFilter (F : FilterSpec) (incident : Incident) : Bool :=
  matchesSearch F.searchTerm incident &&
    matchesStatus F.status incident &&
    matchesPriority F.priority incident &&
    matchesCounty F.county incident

/-- The filter stage of the pipeline: `incidents.filter(...)`. -/
def filteredIncidents (incidents : List Incident) (F : FilterSpec) : List Incident :=
  incidents.filter (passesFilter F)

/-- Computed sort key `totalCasualties` (src/unnamed/part_000, lines
112-113): `deaths + injuries + missing`. -/
def totalCasualties (i : Incident) : Nat :=
  i.casualties.deaths + i.casualties.injuries + i.casualties.missing

/-- Computed sort key `totalLivestock` (lines 115-116):
`cattle + goats + sheep + camels + other`. -/
def totalLivestock (i : Incident) : Nat :=
  i.livestockStolen.cattle + i.livestockStolen.goats + i.livestockStolen.sheep +
    i.livestockStolen.camels + i.livestockStolen.other

/-- Sort direction, the source's `"asc" | "desc"`. -/
inductive SortDirection
  | asc
  | desc
deriving DecidableEq

/-- The sort specification handed to the engine: a field name and a
direction.  The field is a raw string so that unrecognized names can be
expressed. -/
structure SortSpec where
  field : String
  direction : SortDirection
deriving DecidableEq

/-- The tagged union of recognized sortable keys: the record's scalar
attributes (the source's `keyof Incident` positions with scalar values;
optional-valued attributes are outside the model's sortable set) plus the two
computed keys. -/
inductive SortKey
  | _id
  | _creationTime
  | incidentType
  | county
  | location
  | incidentDate
  | reportedDate
  | priority
  | status
  | description
  | isVerified
  | isAnonymous
  | totalCasualties
  | totalLivestock
deriving DecidableEq

/-- Modelled from the spec: the dispatch from a raw field name to a
recognized sortable key.  The source component constrains the field
statically (`keyof Incident | "totalCasualties" | "totalLivestock"`) and has
no runtime validation, silently reading `undefined` for anything else; the
spec's re-architected engine instead recognizes the scalar attributes and the
two computed keys and treats any other name as a contract violation
(`InvalidSortField`). -/
def parseSortField (s : String) : Option SortKey :=
  match s with
  | "_id" => some ._id
  | "_creationTime" => some ._creationTime
  | "incidentType" => some .incidentType
  | "county" => some .county
  | "location" => some .location
  | "incidentDate" => some .incidentDate
  | "reportedDate" => some .reportedDate
  | "priority" => some .priority
  | "status" => some .status
  | "description" => some .description
  | "isVerified" => some .isVerified
  | "isAnonymous" => some .isAnonymous
  | "totalCasualties" => some .totalCasualties
  | "totalLivestock" => some .totalLivestock
  | _ => none

/-- A dynamically-typed comparison value, as produced by `a[sortField]` in
the comparator: either a string or a number. -/
inductive SortValue
  | str (s : String)
  | num (n : Int)
deriving DecidableEq

/-- Extraction of the comparison value for a key (lines 111-120 of the
comparator).  Booleans compare numerically in JavaScript (`false < true`), so
boolean attributes extract as 0/1. -/
def sortValue (k : SortKey) (i : Incident) : SortValue :=
  match k with
  | ._id => .str i._id
  | ._creationTime => .num i._creationTime
  | .incidentType => .str i.incidentType
  | .county => .str i.county
  | .location => .str i.location
  | .incidentDate => .num i.incidentDate
  | .reportedDate => .num i.reportedDate
  | .priority => .str i.priority
  | .status => .str i.status
  | .description => .str i.description
  | .isVerified => .num (if i.isVerified then 1 else 0)
  | .isAnonymous => .num (if i.isAnonymous then 1 else 0)
  | .totalCasualties => .num (totalCasualties i)
  | .totalLivestock => .num (totalLivestock i)

/-- The lower-casing step of the comparator (lines 122-125):
`typeof aValue === "string"` values are lower-cased, numbers are untouched. -/
def lowerValue : SortValue → SortValue
  | .str s => .str (jsToLower s)
  | .num n => .num n

/-- The comparison value actually used by the comparator for a key: the
extracted value after lower-casing. -/
def keyValue (k : SortKey) (i : Incident) : SortValue :=
  lowerValue (sortValue k i)

/-- The `<` test between two comparison values.  For a fixed sort field both
sides always have the same constructor, so the mixed cases are unreachable;
they are `false` (in JavaScript `<` never relates values that compare
unordered). -/
def svLt : SortValue → SortValue → Bool
  | .str a, .str b => jsLt a b
  | .num a, .num b => decide (a < b)
  | .str _, .num _ => false
  | .num _, .str _ => false

/-- The comparator of lines 127-131, producing -1/0/1:
ascending is `aValue < bValue ? -1 : aValue > bValue ? 1 : 0`, descending is
`aValue > bValue ? -1 : aValue < bValue ? 1 : 0`. -/
def compareBy (k : SortKey) (d : SortDirection) (a b : Incident) : Int :=
  match d with
  | .asc =>
    if svLt (keyValue k a) (keyValue k b) then -1
    else if svLt (keyValue k b) (keyValue k a) then 1
    else 0
  | .desc =>
    if svLt (keyValue k b) (keyValue k a) then -1
    else if svLt (keyValue k a) (keyValue k b) then 1
    else 0

/-- The non-strict order induced by the comparator, used to run the sort:
`a` may precede `b` when the comparator does not place `b` strictly first. -/
def sortLe (k : SortKey) (d : SortDirection) (a b : Incident) : Bool :=
  compareBy k d a b ≤ 0

/-- The typed error kinds of the engine (spec section 7). -/
inductive EngineError
  | invalidSortField
  | invalidWindow
deriving DecidableEq

/-- The FilterSortEngine entry point `apply(records, filter, sort)`: validate
the sort field, filter by `passesFilter`, and stable-sort by the comparator.
The filter and comparator are the source's `filteredAndSortedIncidents`; the
`InvalidSortField` failure on an unrecognized field name is modelled from the
spec (see `parseSortField`). -/
def apply (records : List Incident) (F : FilterSpec) (sort : SortSpec) :
    Except EngineError (List Incident) :=
  match parseSortField sort.field with
  | none => .error .invalidSortField
  | some k => .ok ((filteredIncidents records F).mergeSort (sortLe k sort.direction))

/-- One day's pre-bucketed trend data, the element type of the `data` prop of
`TrendsChart` (src/src/components/TrendsChart.tsx, lines 2-7). -/
structure TrendPoint where
  date : String
  incidents : Nat
  critical : Nat
  resolved : Nat
deriving DecidableEq

/-- The inner `Math.max(d.incidents, d.critical, d.resolved)` of the
`maxValue` computation (TrendsChart.tsx, line 22). -/
def pointMax (d : TrendPoint) : Nat :=
  max d.incidents (max d.critical d.resolved)

/-- The chart's `maxValue` (line 22): `Math.max(...data.map(d => ...))`.
The component returns early on empty data, so the empty case (where
JavaScript would give `-Infinity`) is pinned to 0 here. -/
def maxValue (data : List TrendPoint) : Nat :=
  (data.map pointMax).foldr max 0

/-- The chart height constant (line 23). -/
def chartHeight : ℚ := 200

/-- A bar height of lines 81-83: `maxValue > 0 ? (value / maxValue) *
(chartHeight - 32) : 0`, computed over the rationals. -/
def barHeight (mv v : Nat) : ℚ :=
  if 0 < mv then ((v : ℚ) / (mv : ℚ)) * (chartHeight - 32) else 0

/-- The normalized magnitude `value / maxValue` guarded by `maxValue > 0`,
the pure part of the bar-height computation before the pixel scaling. -/
def normalizedValue (mv v : Nat) : ℚ :=
  if 0 < mv then (v : ℚ) / (mv : ℚ) else 0

/-- The constructor kind of a comparison value: `true` for strings, `false`
for numbers.  For a fixed sort field, every record extracts to the same
kind. -/
def svKind : SortValue → Bool
  | .str _ => true
  | .num _ => false

/-- Model of the JavaScript `x || "N/A"` fallback on an optional string:
both an absent value and the empty string are falsy. -/
def jsOrNA (s : Option String) : String :=
  match s with
  | none => "N/A"
  | some t => if t == "" then "N/A" else t

/-- The reporter-information block of `IncidentDetailsModal`
(src/unnamed/part_000, lines 221-228): an anonymous report renders the fixed
"Anonymous Report" line, otherwise the name and phone lines with the `"N/A"`
fallback. -/
def reporterDisplay (incident : Incident) : List String :=
  if incident.isAnonymous then
    ["Anonymous Report"]
  else
    ["Name: " ++ jsOrNA incident.reporterName,
     "Phone: " ++ jsOrNA incident.reporterPhone]

/-- Case-insensitive substring containment, stated abstractly: the
lower-cased term occurs as a contiguous run inside the lower-cased text. -/
def substrCI (term hay : String) : Prop :=
  (jsToLower term).data <:+: (jsToLower hay).data

/-- The searchTerm constraint considered in isolation: when present, the term
must occur case-insensitively in one of description, location, county, and
identifier. -/
def searchOk (F : FilterSpec) (i : Incident) : Prop :=
  F.searchTerm ≠ "" →
    (substrCI F.searchTerm i.description ∨ substrCI F.searchTerm i.location ∨
      substrCI F.searchTerm i.county ∨ substrCI F.searchTerm i._id)

/-- The status constraint considered in isolation. -/
def statusOk (F : FilterSpec) (i : Incident) : Prop :=
  F.status ≠ "" → i.status = F.status

/-- The priority constraint considered in isolation. -/
def priorityOk (F : FilterSpec) (i : Incident) : Prop :=
  F.priority ≠ "" → i.priority = F.priority

/-- The county constraint considered in isolation. -/
def countyOk (F : FilterSpec) (i : Incident) : Prop :=
  F.county ≠ "" → i.county = F.county

/-- Conjunction of the four individually-specified constraints. -/
def passesAll (F : FilterSpec) (i : Incident) : Prop :=
  searchOk F i ∧ statusOk F i ∧ priorityOk F i ∧ countyOk F i

/-- The second filter adds exactly one constraint to the first: one field
that was unset (empty) becomes set, the rest are unchanged. -/
inductive AddsConstraint : FilterSpec → FilterSpec → Prop
  | search (F : FilterSpec) (t : String) :
      F.searchTerm = "" → AddsConstraint F { F with searchTerm := t }
  | status (F : FilterSpec) (v : String) :
      F.status = "" → AddsConstraint F { F with status := v }
  | priority (F : FilterSpec) (v : String) :
      F.priority = "" → AddsConstraint F { F with priority := v }
  | county (F : FilterSpec) (v : String) :
      F.county = "" → AddsConstraint F { F with county := v }

/-- A concrete incident used to instantiate universally quantified theorems:
the search term "ring" occurs in its `_id` only. -/
def sampleIncident : Incident :=
  { _id := "k57ring22"
    _creationTime := 0
    incidentType := "cattle_rustling"
    county := "Turkana"
    subcounty := none
    location := "Lokichar"
    incidentDate := 100
    reportedDate := 120
    priority := "critical"
    status := "reported"
    description := "Armed raiders stole cattle"
    casualties := ⟨2, 1, 0⟩
    livestockStolen := ⟨10, 0, 0, 0, 0⟩
    isVerified := false
    reporterName := some "Alice"
    reporterPhone := some "0700000000"
    isAnonymous := false
    respondingAgencies := []
    actionsTaken := none
    responseTime := none }

/-- A second concrete incident with larger casualty and livestock totals and
a different county and priority. -/
def sampleIncident2 : Incident :=
  { sampleIncident with
    _id := "k91abc44"
    county := "Baringo"
    priority := "low"
    status := "resolved"
    description := "Goats taken at night"
    location := "Marigat"
    casualties := ⟨2, 3, 0⟩
    livestockStolen := ⟨1, 2, 3, 4, 5⟩ }

/-- A concrete trend point for instantiating the chart theorems. -/
def samplePoint : TrendPoint := ⟨"2024-01-01", 5, 2, 3⟩

end Bandit

namespace Bandit

/-! ### Helper lemmas about the string model -/

/-- Correctness of the substring scan: it finds `pat` exactly when `pat` is
an infix of the character list. -/
theorem charsContain_iff (pat l : List Char) : charsContain pat l = true ↔ pat <:+: l := by
  induction l with
  | nil => simp [charsContain, List.isEmpty_iff]
  | cons c t ih =>
    rw [charsContain, List.infix_cons_iff, Bool.or_eq_true, List.isPrefixOf_iff_prefix, ih]

/-- The string order test agrees with the lexicographic order on the
character lists. -/
theorem jsLt_iff (a b : String) : jsLt a b = true ↔ a.data < b.data := by
  simp [jsLt]

/-- Strings with equal character lists are equal. -/
theorem string_eq_of_data {a b : String} (h : a.data = b.data) : a = b := by
  cases a
  cases b
  exact congrArg String.mk (by simpa using h)

/-- The string order test is asymmetric. -/
theorem jsLt_asymm {a b : String} (h1 : jsLt a b = true) (h2 : jsLt b a = true) : False := by
  rw [jsLt_iff] at h1 h2
  exact absurd h2 (lt_asymm h1)

/-- Two strings neither of which is below the other are equal. -/
theorem jsLt_conn {a b : String} (h1 : jsLt a b = false) (h2 : jsLt b a = false) : a = b := by
  rw [← Bool.not_eq_true, jsLt_iff] at h1 h2
  exact string_eq_of_data (le_antisymm (not_lt.mp h2) (not_lt.mp h1))

/-- Transitivity of the complement of the string order test. -/
theorem jsLt_le_trans {a b c : String} (h1 : jsLt b a = false) (h2 : jsLt c b = false) :
    jsLt c a = false := by
  rw [← Bool.not_eq_true, jsLt_iff] at h1 h2 ⊢
  exact not_lt.mpr (le_trans (not_lt.mp h1) (not_lt.mp h2))

/-! ### Helper lemmas about the comparator -/

/-- The comparison-value order test is asymmetric. -/
theorem svLt_asymm {x y : SortValue} (h1 : svLt x y = true) (h2 : svLt y x = true) : False := by
  cases x <;> cases y <;> simp [svLt] at h1 h2
  · exact jsLt_asymm h1 h2
  · exact absurd h2 (lt_asymm h1)

/-- Comparison values of the same kind neither of which is below the other
are equal. -/
theorem svLt_conn {x y : SortValue} (hk : svKind x = svKind y)
    (h1 : svLt x y = false) (h2 : svLt y x = false) : x = y := by
  cases x <;> cases y <;> simp [svKind] at hk <;> simp [svLt] at h1 h2 ⊢
  · exact jsLt_conn h1 h2
  · exact le_antisymm h2 h1

/-- Transitivity of the complement of the comparison-value order test, for
values of a single kind. -/
theorem svLt_le_trans {x y z : SortValue} (hxy : svKind x = svKind y)
    (hyz : svKind y = svKind z)
    (h1 : svLt y x = false) (h2 : svLt z y = false) : svLt z x = false := by
  cases x <;> cases y <;> cases z <;> simp [svKind] at hxy hyz <;>
    simp [svLt] at h1 h2 ⊢
  · exact jsLt_le_trans h1 h2
  · exact le_trans h1 h2

/-- For a fixed sort key all records extract values of the same kind. -/
theorem keyValue_kind (k : SortKey) (a b : Incident) :
    svKind (keyValue k a) = svKind (keyValue k b) := by
  cases k <;> rfl

/-- Characterization of the comparator-induced order, ascending: `a` may
precede `b` exactly when `b`'s key is not strictly below `a`'s. -/
theorem sortLe_asc_iff (k : SortKey) (a b : Incident) :
    sortLe k .asc a b = true ↔ svLt (keyValue k b) (keyValue k a) = false := by
  unfold sortLe compareBy
  cases h1 : svLt (keyValue k a) (keyValue k b) with
  | false =>
    cases h2 : svLt (keyValue k b) (keyValue k a) with
    | false => simp
    | true => simp [h2]
  | true =>
    cases h2 : svLt (keyValue k b) (keyValue k a) with
    | false => simp [h2]
    | true => exact (svLt_asymm h1 h2).elim

/-- Characterization of the comparator-induced order, descending: `a` may
precede `b` exactly when `a`'s key is not strictly below `b`'s. -/
theorem sortLe_desc_iff (k : SortKey) (a b : Incident) :
    sortLe k .desc a b = true ↔ svLt (keyValue k a) (keyValue k b) = false := by
  unfold sortLe compareBy
  cases h1 : svLt (keyValue k b) (keyValue k a) with
  | false =>
    cases h2 : svLt (keyValue k a) (keyValue k b) with
    | false => simp
    | true => simp [h2]
  | true =>
    cases h2 : svLt (keyValue k a) (keyValue k b) with
    | false => simp [h2]
    | true => exact (svLt_asymm h1 h2).elim

/-- The comparator-induced order is transitive, in both directions. -/
theorem sortLe_trans (k : SortKey) (d : SortDirection) (a b c : Incident)
    (h1 : sortLe k d a b = true) (h2 : sortLe k d b c = true) :
    sortLe k d a c = true := by
  cases d
  · rw [sortLe_asc_iff] at h1 h2 ⊢
    exact svLt_le_trans (keyValue_kind k a b) (keyValue_kind k b c) h1 h2
  · rw [sortLe_desc_iff] at h1 h2 ⊢
    exact svLt_le_trans (keyValue_kind k c b) (keyValue_kind k b a) h2 h1

/-- The comparator-induced order is total, in both directions. -/
theorem sortLe_total (k : SortKey) (d : SortDirection) (a b : Incident) :
    (sortLe k d a b || sortLe k d b a) = true := by
  rw [Bool.or_eq_true]
  cases d
  · rw [sortLe_asc_iff, sortLe_asc_iff]
    cases h : svLt (keyValue k b) (keyValue k a) with
    | false => exact Or.inl rfl
    | true =>
      refine Or.inr ?_
      cases h2 : svLt (keyValue k a) (keyValue k b) with
      | false => rfl
      | true => exact (svLt_asymm h h2).elim
  · rw [sortLe_desc_iff, sortLe_desc_iff]
    cases h : svLt (keyValue k a) (keyValue k b) with
    | false => exact Or.inl rfl
    | true =>
      refine Or.inr ?_
      cases h2 : svLt (keyValue k b) (keyValue k a) with
      | false => rfl
      | true => exact (svLt_asymm h h2).elim

/-! ### Helper lemmas about the pipeline -/

/-- Two permuted lists that are both pairwise related by an asymmetric
relation are equal (uniqueness of a strictly sorted arrangement). -/
theorem eq_of_perm_of_pairwise {α : Type} {r : α → α → Prop}
    (asymm : ∀ {a b : α}, r a b → r b a → False) :
    ∀ {l₁ l₂ : List α}, l₁.Perm l₂ → l₁.Pairwise r → l₂.Pairwise r → l₁ = l₂ := by
  intro l₁
  induction l₁ with
  | nil =>
    intro l₂ hp _ _
    cases l₂ with
    | nil => rfl
    | cons b t₂ => simpa using hp.length_eq
  | cons a t ih =>
    intro l₂ hp h1 h2
    cases l₂ with
    | nil => simpa using hp.length_eq
    | cons b t₂ =>
      by_cases hab : a = b
      · subst hab
        rw [ih hp.cons_inv (List.pairwise_cons.mp h1).2 (List.pairwise_cons.mp h2).2]
      · have ha : a ∈ t₂ := by
          rcases List.mem_cons.mp (hp.mem_iff.mp (List.mem_cons_self a t)) with h | h
          · exact absurd h hab
          · exact h
        have hb : b ∈ t := by
          rcases List.mem_cons.mp (hp.symm.mem_iff.mp (List.mem_cons_self b t₂)) with h | h
          · exact absurd h.symm hab
          · exact h
        exact (asymm ((List.pairwise_cons.mp h1).1 b hb)
          ((List.pairwise_cons.mp h2).1 a ha)).elim

/-- Merge sort of a two-element list compares the two elements once. -/
theorem mergeSort_pair {α : Type} (le : α → α → Bool) (x y : α) :
    List.mergeSort [x, y] le = if le x y then [x, y] else [y, x] := by
  unfold List.mergeSort
  simp [List.splitInTwo, List.merge]

/-- Inversion for a successful engine call: the field parsed to some key and
the output is the stable sort of the filtered records. -/
theorem apply_ok_inv {R : List Incident} {F : FilterSpec} {s : SortSpec}
    {out : List Incident} (h : apply R F s = .ok out) :
    ∃ k, parseSortField s.field = some k ∧
      out = (filteredIncidents R F).mergeSort (sortLe k s.direction) := by
  unfold apply at h
  cases hk : parseSortField s.field with
  | none => rw [hk] at h; cases h
  | some k =>
    rw [hk] at h
    exact ⟨k, rfl, (Except.ok.inj h).symm⟩

/-- A successful engine output is a permutation of the filtered input. -/
theorem apply_ok_perm {R : List Incident} {F : FilterSpec} {s : SortSpec}
    {out : List Incident} (h : apply R F s = .ok out) :
    out.Perm (filteredIncidents R F) := by
  obtain ⟨k, -, rfl⟩ := apply_ok_inv h
  exact List.mergeSort_perm _ _

/-- A successful engine output is pairwise ordered by the comparator-induced
order. -/
theorem apply_ok_pairwise {R : List Incident} {F : FilterSpec} {s : SortSpec}
    {out : List Incident} {k : SortKey} (h : apply R F s = .ok out)
    (hk : parseSortField s.field = some k) :
    out.Pairwise (fun a b => sortLe k s.direction a b = true) := by
  obtain ⟨k', hk', rfl⟩ := apply_ok_inv h
  rw [hk] at hk'
  cases Option.some.inj hk'
  exact List.sorted_mergeSort (sortLe_trans k s.direction) (sortLe_total k s.direction) _

/-- The all-empty filter passes every incident. -/
theorem passesFilter_empty (i : Incident) : passesFilter emptyFilter i = true := by
  simp [passesFilter, emptyFilter, matchesSearch, matchesStatus, matchesPriority, matchesCounty]

/-- Characterization of the search conjunct for a non-empty term: it holds
exactly when the term occurs case-insensitively in one of the four searched
fields. -/
theorem matchesSearch_substr (term : String) (i : Incident) (h : term ≠ "") :
    matchesSearch term i = true ↔
      (substrCI term i.description ∨ substrCI term i.location ∨
        substrCI term i.county ∨ substrCI term i._id) := by
  simp [matchesSearch, h, jsIncludes, charsContain_iff, substrCI]
  tauto

/-- An empty search term matches every incident. -/
theorem matchesSearch_nil (i : Incident) : matchesSearch "" i = true := by
  simp [matchesSearch]

/-! ### Claim theorems -/

/-- C1: when the sort field is not a recognized sortable key, `apply` fails
with the typed error `InvalidSortField` and produces no result sequence, for
every record list, filter, and direction. -/
theorem apply_unknown_field_fails (R : List Incident) (F : FilterSpec)
    (f : String) (d : SortDirection) (h : parseSortField f = none) :
    apply R F ⟨f, d⟩ = .error .invalidSortField := by
  simp only [apply, h]

/-- Witness for C1 at the concrete unrecognized field name "casualties"
(a record attribute, but not a scalar one). -/
theorem apply_unknown_field_fails_witness :
    parseSortField ("casualties") = none ∧
      apply [sampleIncident] emptyFilter ⟨"casualties", .asc⟩ = .error .invalidSortField :=
  ⟨by decide,
   apply_unknown_field_fails [sampleIncident] emptyFilter ("casualties") .asc (by decide)⟩

/-- C2: for every record and non-empty search term, the record passes the
searchTerm constraint iff at least one of description, location, county, and
identifier contains the term as a case-insensitive substring (logical OR
across exactly these four fields). -/
theorem search_or_across_fields (term : String) (i : Incident) (h : term ≠ "") :
    matchesSearch term i = true ↔
      (substrCI term i.description ∨ substrCI term i.location ∨
        substrCI term i.county ∨ substrCI term i._id) :=
  matchesSearch_substr term i h

/-- Witness for C2: the term "ring" occurs only in `sampleIncident`'s
identifier, and the incident passes. -/
theorem search_or_across_fields_witness :
    matchesSearch ("ring") sampleIncident = true ↔
      (substrCI ("ring") sampleIncident.description ∨
        substrCI ("ring") sampleIncident.location ∨
        substrCI ("ring") sampleIncident.county ∨
        substrCI ("ring") sampleIncident._id) :=
  search_or_across_fields ("ring") sampleIncident (by decide)

/-- C3: a successful `apply` output draws only from the input list: every
output element occurs in the input, no element gains multiplicity, and the
output is never longer than the input. -/
theorem apply_subsequence (R : List Incident) (F : FilterSpec) (s : SortSpec)
    (out : List Incident) (h : apply R F s = .ok out) :
    (∀ x ∈ out, x ∈ R) ∧ (∀ x, out.count x ≤ R.count x) ∧ out.length ≤ R.length := by
  have hperm := apply_ok_perm h
  have hsub : (filteredIncidents R F).Sublist R := List.filter_sublist R
  refine ⟨?_, ?_, ?_⟩
  · intro x hx
    exact hsub.subset (hperm.mem_iff.mp hx)
  · intro x
    calc out.count x = (filteredIncidents R F).count x := hperm.count_eq x
      _ ≤ R.count x := hsub.count_le x
  · calc out.length = (filteredIncidents R F).length := hperm.length_eq
      _ ≤ R.length := hsub.length_le

/-- Witness for C3 on a concrete one-element record list. -/
theorem apply_subsequence_witness :
    (∀ x ∈ [sampleIncident], x ∈ [sampleIncident]) ∧
      (∀ x, List.count x [sampleIncident] ≤ List.count x [sampleIncident]) ∧
      ([sampleIncident] : List Incident).length ≤ ([sampleIncident] : List Incident).length :=
  apply_subsequence [sampleIncident] emptyFilter ⟨"incidentDate", .desc⟩ [sampleIncident]
    (by simp [apply, parseSortField, filteredIncidents, List.filter_cons, passesFilter_empty])

/-- The status conjunct holds iff the constraint, when present, is met. -/
theorem matchesStatus_iff (v : String) (i : Incident) :
    matchesStatus v i = true ↔ (v ≠ "" → i.status = v) := by
  by_cases h : v = ""
  · subst h
    simp [matchesStatus]
  · simp [matchesStatus, h]

/-- The priority conjunct holds iff the constraint, when present, is met. -/
theorem matchesPriority_iff (v : String) (i : Incident) :
    matchesPriority v i = true ↔ (v ≠ "" → i.priority = v) := by
  by_cases h : v = ""
  · subst h
    simp [matchesPriority]
  · simp [matchesPriority, h]

/-- The county conjunct holds iff the constraint, when present, is met. -/
theorem matchesCounty_iff (v : String) (i : Incident) :
    matchesCounty v i = true ↔ (v ≠ "" → i.county = v) := by
  by_cases h : v = ""
  · subst h
    simp [matchesCounty]
  · simp [matchesCounty, h]

/-- The search conjunct holds iff the constraint, when present, is met. -/
theorem matchesSearch_iff (v : String) (i : Incident) :
    matchesSearch v i = true ↔
      (v ≠ "" →
        (substrCI v i.description ∨ substrCI v i.location ∨
          substrCI v i.county ∨ substrCI v i._id)) := by
  by_cases h : v = ""
  · subst h
    simp [matchesSearch_nil]
  · rw [matchesSearch_substr v i h]
    simp [h]

/-- The combined filter decomposes into the four individual constraints. -/
theorem passesFilter_iff_passesAll (F : FilterSpec) (i : Incident) :
    passesFilter F i = true ↔ passesAll F i := by
  unfold passesFilter passesAll searchOk statusOk priorityOk countyOk
  rw [Bool.and_eq_true, Bool.and_eq_true, Bool.and_eq_true,
    matchesSearch_iff, matchesStatus_iff, matchesPriority_iff, matchesCounty_iff]
  tauto

/-- A record passing a filter with one extra constraint also passes the
original filter. -/
theorem addsConstraint_imp {F F' : FilterSpec} (h : AddsConstraint F F') (i : Incident) :
    passesFilter F' i = true → passesFilter F i = true := by
  rw [passesFilter_iff_passesAll, passesFilter_iff_passesAll]
  cases h with
  | search t he =>
    rintro ⟨-, h2, h3, h4⟩
    exact ⟨fun hne => absurd he hne, h2, h3, h4⟩
  | status v he =>
    rintro ⟨h1, -, h3, h4⟩
    exact ⟨h1, fun hne => absurd he hne, h3, h4⟩
  | priority v he =>
    rintro ⟨h1, h2, -, h4⟩
    exact ⟨h1, h2, fun hne => absurd he hne, h4⟩
  | county v he =>
    rintro ⟨h1, h2, h3, -⟩
    exact ⟨h1, h2, h3, fun hne => absurd he hne⟩

/-- C4: a record passes the combined filter iff it passes every
individually-specified constraint (absent constraints impose nothing), and
adding one more constraint never increases the size of a successful result. -/
theorem filter_and_semantics :
    (∀ (F : FilterSpec) (i : Incident), passesFilter F i = true ↔ passesAll F i) ∧
      (∀ (F F' : FilterSpec) (R : List Incident) (s : SortSpec)
        (out out' : List Incident), AddsConstraint F F' →
          apply R F s = .ok out → apply R F' s = .ok out' →
            out'.length ≤ out.length) := by
  refine ⟨passesFilter_iff_passesAll, ?_⟩
  intro F F' R s out out' hadd h h'
  have hmono : (filteredIncidents R F').Sublist (filteredIncidents R F) :=
    List.monotone_filter_right R (fun i => addsConstraint_imp hadd i)
  calc out'.length = (filteredIncidents R F').length := (apply_ok_perm h').length_eq
    _ ≤ (filteredIncidents R F).length := hmono.length_le
    _ = out.length := ((apply_ok_perm h).length_eq).symm

/-- Witness for C4: the decomposition at a concrete filter and record, and
the size bound after adding a status constraint to the empty filter on a
one-record list. -/
theorem filter_and_semantics_witness :
    (passesFilter emptyFilter sampleIncident = true ↔ passesAll emptyFilter sampleIncident) ∧
      ([sampleIncident] : List Incident).length ≤ ([sampleIncident] : List Incident).length :=
  ⟨filter_and_semantics.1 emptyFilter sampleIncident,
   filter_and_semantics.2 emptyFilter { emptyFilter with status := ("reported") }
     [sampleIncident] ⟨"incidentDate", .asc⟩ [sampleIncident] [sampleIncident]
     (AddsConstraint.status emptyFilter ("reported") rfl)
     (by simp [apply, parseSortField, filteredIncidents, List.filter_cons, passesFilter_empty])
     (by simp +decide [apply, parseSortField, filteredIncidents, List.filter_cons])⟩

/-- Sorting a two-element list ascending places the record with the strictly
smaller comparison key first. -/
theorem apply_pair_asc {k : SortKey} {f : String} (hf : parseSortField f = some k)
    (a b : Incident) (hlt : svLt (keyValue k a) (keyValue k b) = true) :
    apply [b, a] emptyFilter ⟨f, .asc⟩ = .ok [a, b] := by
  have hfilter : filteredIncidents [b, a] emptyFilter = [b, a] := by
    simp [filteredIncidents, List.filter_cons, passesFilter_empty]
  have hle : sortLe k .asc b a = false := by
    rw [Bool.eq_false_iff]
    intro hcontra
    rw [sortLe_asc_iff, hlt] at hcontra
    cases hcontra
  simp only [apply, hf, hfilter, mergeSort_pair, hle]
  rw [if_neg (by simp)]

/-- C5: the computed sort keys equal the casualty and livestock component
sums, and sorting ascending by either computed key places the record with
the smaller sum first. -/
theorem computed_sort_keys :
    (∀ i : Incident, totalCasualties i =
        i.casualties.deaths + i.casualties.injuries + i.casualties.missing) ∧
      (∀ i : Incident, totalLivestock i =
        i.livestockStolen.cattle + i.livestockStolen.goats + i.livestockStolen.sheep +
          i.livestockStolen.camels + i.livestockStolen.other) ∧
      (∀ a b : Incident, totalCasualties a < totalCasualties b →
        apply [b, a] emptyFilter ⟨"totalCasualties", .asc⟩ = .ok [a, b]) ∧
      (∀ a b : Incident, totalLivestock a < totalLivestock b →
        apply [b, a] emptyFilter ⟨"totalLivestock", .asc⟩ = .ok [a, b]) := by
  refine ⟨fun i => rfl, fun i => rfl, ?_, ?_⟩
  · intro a b hab
    refine apply_pair_asc (show parseSortField ("totalCasualties") = some .totalCasualties from rfl) a b ?_
    show svLt (.num (totalCasualties a)) (.num (totalCasualties b)) = true
    simp [svLt]
    exact_mod_cast hab
  · intro a b hab
    refine apply_pair_asc (show parseSortField ("totalLivestock") = some .totalLivestock from rfl) a b ?_
    show svLt (.num (totalLivestock a)) (.num (totalLivestock b)) = true
    simp [svLt]
    exact_mod_cast hab

/-- Witness for C5: `sampleIncident` has casualty total 3 (deaths 2,
injuries 1, missing 0) and livestock total 10; `sampleIncident2` has totals
5 and 15; ascending sorts place `sampleIncident` first. -/
theorem computed_sort_keys_witness :
    totalCasualties sampleIncident =
        sampleIncident.casualties.deaths + sampleIncident.casualties.injuries +
          sampleIncident.casualties.missing ∧
      totalLivestock sampleIncident =
        sampleIncident.livestockStolen.cattle + sampleIncident.livestockStolen.goats +
          sampleIncident.livestockStolen.sheep + sampleIncident.livestockStolen.camels +
          sampleIncident.livestockStolen.other ∧
      apply [sampleIncident2, sampleIncident] emptyFilter ⟨"totalCasualties", .asc⟩ =
        .ok [sampleIncident, sampleIncident2] ∧
      apply [sampleIncident2, sampleIncident] emptyFilter ⟨"totalLivestock", .asc⟩ =
        .ok [sampleIncident, sampleIncident2] :=
  ⟨computed_sort_keys.1 sampleIncident,
   computed_sort_keys.2.1 sampleIncident,
   computed_sort_keys.2.2.1 sampleIncident sampleIncident2 (by decide),
   computed_sort_keys.2.2.2 sampleIncident sampleIncident2 (by decide)⟩

/-- C7: for string-valued sort fields the comparator compares the
lower-cased values, and ascending order on such a field places the record
whose lower-cased value is smaller first. -/
theorem sort_strings_case_insensitive :
    (∀ (k : SortKey) (a b : Incident) (sa sb : String),
        sortValue k a = .str sa → sortValue k b = .str sb →
        compareBy k .asc a b =
          if jsLt (jsToLower sa) (jsToLower sb) then -1
          else if jsLt (jsToLower sb) (jsToLower sa) then 1 else 0) ∧
      (∀ a b : Incident, jsLt (jsToLower a.county) (jsToLower b.county) = true →
        apply [b, a] emptyFilter ⟨"county", .asc⟩ = .ok [a, b]) := by
  constructor
  · intro k a b sa sb ha hb
    unfold compareBy keyValue
    rw [ha, hb]
    rfl
  · intro a b hab
    refine apply_pair_asc (show parseSortField ("county") = some .county from rfl) a b ?_
    show svLt (.str (jsToLower a.county)) (.str (jsToLower b.county)) = true
    exact hab

/-- Witness for C7 at the spec's example: counties "turkana" and "Baringo"
sorted ascending by county come out with "Baringo" first, because
"baringo" < "turkana" after lower-casing. -/
theorem sort_strings_case_insensitive_witness :
    compareBy .county .asc sampleIncident2 { sampleIncident with county := ("turkana") } =
        (if jsLt (jsToLower ("Baringo")) (jsToLower ("turkana")) then -1
         else if jsLt (jsToLower ("turkana")) (jsToLower ("Baringo")) then 1 else 0) ∧
      apply [{ sampleIncident with county := ("turkana") }, sampleIncident2] emptyFilter
          ⟨"county", .asc⟩ =
        .ok [sampleIncident2, { sampleIncident with county := ("turkana") }] :=
  ⟨sort_strings_case_insensitive.1 .county sampleIncident2
      { sampleIncident with county := ("turkana") } ("Baringo") ("turkana") rfl rfl,
   sort_strings_case_insensitive.2 sampleIncident2
      { sampleIncident with county := ("turkana") } (by decide)⟩

/-- C10: sorting by priority (a string-valued enum) uses lexicographic order
on the lower-cased enum literals, so "critical" < "high" < "low" < "medium";
ascending priority order sorts a critical/low pair critical-first, and in
every successful ascending-by-priority output no "low" record precedes a
"critical" one. -/
theorem priority_sort_lexicographic :
    (jsLt ("critical") ("high") = true ∧ jsLt ("high") ("low") = true ∧
        jsLt ("low") ("medium") = true) ∧
      (∀ a b : Incident, a.priority = "critical" → b.priority = "low" →
        apply [b, a] emptyFilter ⟨"priority", .asc⟩ = .ok [a, b]) ∧
      (∀ (R : List Incident) (F : FilterSpec) (out : List Incident),
        apply R F ⟨"priority", .asc⟩ = .ok out →
        out.Pairwise (fun a b => ¬(a.priority = "low" ∧ b.priority = "critical"))) := by
  refine ⟨by decide, ?_, ?_⟩
  · intro a b ha hb
    refine apply_pair_asc (show parseSortField ("priority") = some .priority from rfl) a b ?_
    show svLt (.str (jsToLower a.priority)) (.str (jsToLower b.priority)) = true
    rw [ha, hb]
    decide
  · intro R F out h
    refine (apply_ok_pairwise h rfl).imp ?_
    intro a b hle hcontra
    rw [sortLe_asc_iff] at hle
    have hlt : svLt (keyValue .priority b) (keyValue .priority a) = true := by
      show svLt (.str (jsToLower b.priority)) (.str (jsToLower a.priority)) = true
      rw [hcontra.1, hcontra.2]
      decide
    exact Bool.noConfusion (hlt.symm.trans hle)

/-- Witness for C10: `sampleIncident` (critical) sorts before
`sampleIncident2` (low) under ascending priority. -/
theorem priority_sort_lexicographic_witness :
    apply [sampleIncident2, sampleIncident] emptyFilter ⟨"priority", .asc⟩ =
      .ok [sampleIncident, sampleIncident2] :=
  priority_sort_lexicographic.2.1 sampleIncident sampleIncident2 rfl rfl

/-- Every member of a list of naturals is bounded by the max-fold. -/
theorem le_foldr_max {l : List Nat} {x : Nat} (hx : x ∈ l) : x ≤ l.foldr max 0 := by
  induction l with
  | nil => cases hx
  | cons a t ih =>
    rcases List.mem_cons.mp hx with h | h
    · subst h
      exact le_max_left _ _
    · exact le_trans (ih h) (le_max_right _ _)

/-- The max-fold of a list of naturals is a member or zero. -/
theorem foldr_max_mem (l : List Nat) : l.foldr max 0 ∈ l ∨ l.foldr max 0 = 0 := by
  induction l with
  | nil => exact Or.inr rfl
  | cons a t ih =>
    rcases max_choice a (t.foldr max 0) with h | h
    · refine Or.inl ?_
      show max a (t.foldr max 0) ∈ a :: t
      rw [h]
      exact List.mem_cons_self _ _
    · rcases ih with hm | hz
      · refine Or.inl ?_
        show max a (t.foldr max 0) ∈ a :: t
        rw [h]
        exact List.mem_cons_of_mem _ hm
      · refine Or.inr ?_
        show max a (t.foldr max 0) = 0
        rw [h]
        exact hz

/-- A point's three series values are bounded by the chart's `maxValue`. -/
theorem le_maxValue {data : List TrendPoint} {p : TrendPoint} (hp : p ∈ data) :
    p.incidents ≤ maxValue data ∧ p.critical ≤ maxValue data ∧
      p.resolved ≤ maxValue data := by
  have hb : pointMax p ≤ maxValue data := le_foldr_max (List.mem_map_of_mem pointMax hp)
  refine ⟨le_trans ?_ hb, le_trans ?_ hb, le_trans ?_ hb⟩
  · exact le_max_left _ _
  · exact le_trans (le_max_left _ _) (le_max_right _ _)
  · exact le_trans (le_max_right _ _) (le_max_right _ _)

/-- C8: for non-empty trend data, `maxValue` is the maximum of every
individual incidents/critical/resolved value (an upper bound that is
attained), every normalized magnitude lies in [0,1], and when every input
value is 0 then `maxValue` is 0 and every normalized magnitude is 0, never
dividing by zero. -/
theorem scale_normalization (data : List TrendPoint) (hne : data ≠ []) :
    ((∀ p ∈ data, p.incidents ≤ maxValue data ∧ p.critical ≤ maxValue data ∧
        p.resolved ≤ maxValue data) ∧
      (∃ p ∈ data, maxValue data = p.incidents ∨ maxValue data = p.critical ∨
        maxValue data = p.resolved)) ∧
      (∀ p ∈ data, ∀ v : Nat, (v = p.incidents ∨ v = p.critical ∨ v = p.resolved) →
        0 ≤ normalizedValue (maxValue data) v ∧ normalizedValue (maxValue data) v ≤ 1) ∧
      ((∀ p ∈ data, p.incidents = 0 ∧ p.critical = 0 ∧ p.resolved = 0) →
        maxValue data = 0 ∧
          ∀ p ∈ data, normalizedValue (maxValue data) p.incidents = 0 ∧
            normalizedValue (maxValue data) p.critical = 0 ∧
            normalizedValue (maxValue data) p.resolved = 0) := by
  refine ⟨⟨fun p hp => le_maxValue hp, ?_⟩, ?_, ?_⟩
  · rcases foldr_max_mem (data.map pointMax) with hm | hz
    · obtain ⟨p, hp, hpm⟩ := List.mem_map.mp hm
      have hmv : maxValue data = pointMax p := hpm.symm
      refine ⟨p, hp, ?_⟩
      rw [hmv]
      simp only [pointMax]
      rcases max_choice p.incidents (max p.critical p.resolved) with h | h
      · exact Or.inl h
      · rcases max_choice p.critical p.resolved with h' | h'
        · exact Or.inr (Or.inl (h.trans h'))
        · exact Or.inr (Or.inr (h.trans h'))
    · obtain ⟨p, hp⟩ := List.exists_mem_of_ne_nil data hne
      have hz' : maxValue data = 0 := hz
      refine ⟨p, hp, Or.inl ?_⟩
      have hb := (le_maxValue hp).1
      omega
  · intro p hp v hv
    unfold normalizedValue
    by_cases hmv : 0 < maxValue data
    · rw [if_pos hmv]
      have hvle : v ≤ maxValue data := by
        rcases hv with h | h | h <;> subst h
        · exact (le_maxValue hp).1
        · exact (le_maxValue hp).2.1
        · exact (le_maxValue hp).2.2
      constructor
      · positivity
      · rw [div_le_one (by exact_mod_cast hmv)]
        exact_mod_cast hvle
    · rw [if_neg hmv]
      norm_num
  · intro hzero
    have hmv : maxValue data = 0 := by
      rcases foldr_max_mem (data.map pointMax) with hm | hz
      · obtain ⟨p, hp, hpm⟩ := List.mem_map.mp hm
        obtain ⟨h1, h2, h3⟩ := hzero p hp
        have hmv : maxValue data = pointMax p := hpm.symm
        rw [hmv]
        simp [pointMax, h1, h2, h3]
      · exact hz
    refine ⟨hmv, fun p hp => ?_⟩
    rw [hmv]
    simp [normalizedValue]

/-- Witness for C8 on the concrete one-point data set `[samplePoint]`. -/
theorem scale_normalization_witness :
    ((∀ p ∈ [samplePoint], p.incidents ≤ maxValue [samplePoint] ∧
        p.critical ≤ maxValue [samplePoint] ∧ p.resolved ≤ maxValue [samplePoint]) ∧
      (∃ p ∈ [samplePoint], maxValue [samplePoint] = p.incidents ∨
        maxValue [samplePoint] = p.critical ∨ maxValue [samplePoint] = p.resolved)) ∧
      (∀ p ∈ [samplePoint], ∀ v : Nat,
        (v = p.incidents ∨ v = p.critical ∨ v = p.resolved) →
        0 ≤ normalizedValue (maxValue [samplePoint]) v ∧
          normalizedValue (maxValue [samplePoint]) v ≤ 1) ∧
      ((∀ p ∈ [samplePoint], p.incidents = 0 ∧ p.critical = 0 ∧ p.resolved = 0) →
        maxValue [samplePoint] = 0 ∧
          ∀ p ∈ [samplePoint], normalizedValue (maxValue [samplePoint]) p.incidents = 0 ∧
            normalizedValue (maxValue [samplePoint]) p.critical = 0 ∧
            normalizedValue (maxValue [samplePoint]) p.resolved = 0) :=
  scale_normalization [samplePoint] (by decide)

/-- C6: on a record list whose comparison keys under the chosen field are
pairwise distinct, running the pipeline ascending and descending (same
records, filter, and field) yields outputs that are exact reverses of each
other. -/
theorem direction_flip (R : List Incident) (F : FilterSpec) (f : String)
    (k : SortKey) (hk : parseSortField f = some k)
    (hdist : R.Pairwise (fun a b => keyValue k a ≠ keyValue k b))
    (outA outD : List Incident)
    (hA : apply R F ⟨f, .asc⟩ = .ok outA)
    (hD : apply R F ⟨f, .desc⟩ = .ok outD) :
    outD = outA.reverse := by
  have hpermA : outA.Perm (filteredIncidents R F) := apply_ok_perm hA
  have hpermD : outD.Perm (filteredIncidents R F) := apply_ok_perm hD
  have hsortA : outA.Pairwise (fun a b => sortLe k .asc a b = true) :=
    apply_ok_pairwise hA hk
  have hsortD : outD.Pairwise (fun a b => sortLe k .desc a b = true) :=
    apply_ok_pairwise hD hk
  have hne : (filteredIncidents R F).Pairwise (fun a b => keyValue k a ≠ keyValue k b) :=
    List.Pairwise.sublist (List.filter_sublist R) hdist
  have hneA : outA.Pairwise (fun a b => keyValue k a ≠ keyValue k b) :=
    (hpermA.pairwise_iff (fun h => h.symm)).mpr hne
  have hneD : outD.Pairwise (fun a b => keyValue k a ≠ keyValue k b) :=
    (hpermD.pairwise_iff (fun h => h.symm)).mpr hne
  have strictA : outA.Pairwise (fun a b => svLt (keyValue k a) (keyValue k b) = true) := by
    refine (hsortA.and hneA).imp ?_
    rintro a b ⟨hle, hneq⟩
    rw [sortLe_asc_iff] at hle
    cases hlt : svLt (keyValue k a) (keyValue k b) with
    | true => rfl
    | false => exact absurd (svLt_conn (keyValue_kind k a b) hlt hle) hneq
  have strictD : outD.reverse.Pairwise
      (fun a b => svLt (keyValue k a) (keyValue k b) = true) := by
    rw [List.pairwise_reverse]
    refine (hsortD.and hneD).imp ?_
    rintro a b ⟨hle, hneq⟩
    rw [sortLe_desc_iff] at hle
    cases hlt : svLt (keyValue k b) (keyValue k a) with
    | true => rfl
    | false => exact absurd (svLt_conn (keyValue_kind k b a) hlt hle) (fun h => hneq h.symm)
  have hperm : outA.Perm outD.reverse :=
    hpermA.trans ((outD.reverse_perm.trans hpermD).symm)
  have heq : outA = outD.reverse :=
    eq_of_perm_of_pairwise (fun h1 h2 => svLt_asymm h1 h2) hperm strictA strictD
  rw [heq, List.reverse_reverse]

/-- Witness for C6: two records with distinct county keys, sorted ascending
and descending by county. -/
theorem direction_flip_witness :
    ([sampleIncident, sampleIncident2] : List Incident) =
      ([sampleIncident2, sampleIncident] : List Incident).reverse :=
  direction_flip [sampleIncident, sampleIncident2] emptyFilter ("county") .county rfl
    (by decide) [sampleIncident2, sampleIncident] [sampleIncident, sampleIncident2]
    (by simp +decide [apply, parseSortField, filteredIncidents, List.filter_cons,
      mergeSort_pair])
    (by simp +decide [apply, parseSortField, filteredIncidents, List.filter_cons,
      mergeSort_pair])

/-- C9: with the anonymity flag set, the reporter-information output does not
depend on the reporter name and phone fields at all: two records identical
except in those fields produce identical output. -/
theorem anonymous_hides_reporter (i : Incident) (n₁ p₁ n₂ p₂ : Option String)
    (h : i.isAnonymous = true) :
    reporterDisplay { i with reporterName := n₁, reporterPhone := p₁ } =
      reporterDisplay { i with reporterName := n₂, reporterPhone := p₂ } := by
  cases i
  simp only [reporterDisplay] at *
  simp_all

/-- Witness for C9: an anonymous record with a present name and phone renders
the same reporter block as the same record with both absent. -/
theorem anonymous_hides_reporter_witness :
    reporterDisplay { { sampleIncident with isAnonymous := true } with
        reporterName := some ("Alice"), reporterPhone := some ("0700000000") } =
      reporterDisplay { { sampleIncident with isAnonymous := true } with
        reporterName := none, reporterPhone := none } :=
  anonymous_hides_reporter { sampleIncident with isAnonymous := true }
    (some ("Alice")) (some ("0700000000")) none none (by decide)

end Bandit
